import Mathlib

/-!
Verification of the task-execution pipeline of `redis-tasks`.

The repository ships only the package declarations and the reference tests
for the execution pipeline; the module `redis_tasks/task.py` that implements
`Task.execute` and `Task._generate_outcome` is not part of the sources at
hand.  Following the specification (spec.md §§3–4, §7, §8), the pipeline is
therefore modelled here as a shallow embedding: faults, the outcome
classifier, the middleware chain (instantiation, run phase, outcome
processing) and the shutdown scope are Lean functions written from the
spec's description, and the observable event trace of one execution attempt
is computed explicitly so that the ordering claims can be stated as list
equalities.
-/

namespace RedisTasks

/-- Modelled from the spec: a captured fault. The Python triple
`(fault_kind, fault_value, fault_trace)` is modelled as the fault-kind name,
the stringified detail, whether the fault is of the dedicated aborted kind
(`TaskAborted`, of which `WorkerShutdown` is the shutdown-specific variant),
and a trace body. -/
structure Fault where
  kind : String
  detail : String
  aborted : Bool
  trace : String
deriving DecidableEq

/-- Modelled from the spec: the shutdown fault, an aborted-kind fault whose
literal text is the fixed string "Worker shutdown". -/
def workerShutdown : Fault :=
  { kind := "WorkerShutdown", detail := "Worker shutdown", aborted := true, trace := "" }

/-- Modelled from the spec: the fault state captured when `callable_reference`
cannot be resolved; its formatted last line must read
"RuntimeError: Failed to import task function" verbatim. -/
def resolutionFault : Fault :=
  { kind := "RuntimeError", detail := "Failed to import task function",
    aborted := false, trace := "" }

/-- The closed set of outcome kinds. -/
inductive OutcomeKind where
  | success
  | aborted
  | failed
deriving DecidableEq

/-- The result of one execution attempt: a kind plus a message. -/
structure Outcome where
  outcome : OutcomeKind
  message : String
deriving DecidableEq

/-- Modelled from the spec: the full formatted fault trace, whose final line
is exactly the fault kind name, a colon, a space and the stringified
detail. -/
def formatTrace (f : Fault) : String :=
  "Traceback (most recent call last):\n" ++ f.trace ++ "\n" ++ f.kind ++ ": " ++ f.detail

/-- The last line of a string: the suffix after the final newline
(what `s.splitlines()[-1]` inspects in the reference tests). -/
def lastLine (s : String) : String :=
  ⟨(s.data.reverse.takeWhile (fun c => c != '\n')).reverse⟩

/-- Whether a string contains no newline character. -/
def singleLine (s : String) : Bool :=
  s.data.all (fun c => c != '\n')

/-- Modelled from the spec: the Outcome Classifier, a pure mapping over the
already-captured fault state. No fault → Success with empty message; a fault
of the aborted kind → Aborted with the fault's literal text; any other
fault → Failed with the full formatted trace. -/
def classify (triple : Option Fault) : Outcome :=
  match triple with
  | none => { outcome := .success, message := "" }
  | some f =>
      if f.aborted then { outcome := .aborted, message := f.detail }
      else { outcome := .failed, message := formatTrace f }

/-- Modelled from the spec: the behaviour of one middleware's
`process_outcome`. It may return a falsy value (keep the fault triple),
return a truthy non-fault value (clear the triple), return a fault object
(replace the triple), or — as exercised by the reference tests — raise a
fault, which the pipeline captures and installs as the new triple. -/
inductive POAction where
  | keep
  | clear
  | replace (f : Fault)
  | raiseF (f : Fault)
deriving DecidableEq

/-- Modelled from the spec: a middleware instance, described by its
observable behaviour: whether `run_task` raises before calling `proceed`,
whether it raises from its cleanup after `proceed` returns or faults, and
what `process_outcome` does. -/
structure Middleware where
  raiseBefore : Option Fault
  raiseAfter : Option Fault
  outcome : POAction
deriving DecidableEq

/-- A passive (spy-like) middleware: never raises in `run_task` and keeps
the fault triple in `process_outcome`. -/
def spy : Middleware := { raiseBefore := none, raiseAfter := none, outcome := .keep }

/-- Modelled from the spec: one registered middleware factory, which either
produces an instance when invoked or itself faults during the instantiation
phase. -/
inductive Factory where
  | ok (m : Middleware)
  | broken (f : Fault)
deriving DecidableEq

/-- Modelled from the spec: the shutdown scope, a scoped region whose entry
or exit hook may itself raise a fault; the exit hook's own code runs only
when the wrapped call returned normally, while a fault of the wrapped call
propagates through the guaranteed exit. -/
structure ShutdownCM where
  enterFault : Option Fault
  exitFault : Option Fault
deriving DecidableEq

/-- Modelled from the spec: a task, described by whether its
`callable_reference` resolves and by the behaviour of the resolved callable
when invoked (`none` = returns normally, `some f` = raises `f`). -/
structure Task where
  resolvable : Bool
  callFault : Option Fault
deriving DecidableEq

/-- One observable event of an execution attempt. Each event records whether
it happened while the shutdown scope was entered; `processOutcome` records
the fault triple the middleware observed. -/
inductive Event where
  | before (i : Nat) (inCM : Bool)
  | after (i : Nat) (inCM : Bool)
  | call (inCM : Bool)
  | processOutcome (i : Nat) (triple : Option Fault) (inCM : Bool)
deriving DecidableEq

/-- The scope flag an event was recorded with. -/
def eventInCM : Event → Bool
  | .before _ b => b
  | .after _ b => b
  | .call b => b
  | .processOutcome _ _ b => b

/-- Whether an event is the raw callable invocation. -/
def isCall : Event → Bool
  | .call _ => true
  | _ => false

/-- Modelled from the spec: the innermost `proceed` of the chain — enter the
shutdown scope, invoke the resolved callable, exit the scope; with no scope
supplied the callable is invoked directly with no bracketing. A fault raised
by the entry hook prevents the callable from ever being invoked. -/
def innerProceed (t : Task) (cm : Option ShutdownCM) (b : Bool) : Option Fault × List Event :=
  match cm with
  | none => (t.callFault, [.call b])
  | some c =>
      match c.enterFault with
      | some f => (some f, [])
      | none =>
          match t.callFault with
          | some f => (some f, [.call true])
          | none => (c.exitFault, [.call true])

/-- Modelled from the spec: the run phase, an onion nesting over the factory
list in registration order, outermost = first registered. A live instance
runs its before-portion, calls `proceed`, and runs its after-portion in a
`finally` (so the after-portion runs whether or not the nested call faulted,
and a fault of its own from the after-portion replaces the nested result); a
position whose instantiation faulted raises the recorded fault at that exact
point in the nesting. The first result component is the fault escaping the
outermost `run_task` (`none` = normal return); the second is the event
trace. `i` is the registration position of the first entry and `b` the
ambient scope flag. -/
def runChain (t : Task) (cm : Option ShutdownCM) (b : Bool) :
    Nat → List Factory → Option Fault × List Event
  | _, [] => innerProceed t cm b
  | _, .broken f :: _ => (some f, [])
  | i, .ok m :: rest =>
      match m.raiseBefore with
      | some f => (some f, [.before i b])
      | none =>
          (match m.raiseAfter with
           | some g => some g
           | none => (runChain t cm b (i + 1) rest).1,
           .before i b :: (runChain t cm b (i + 1) rest).2 ++ [.after i b])

/-- Modelled from the spec: the instantiation phase's record of live
instances, each tagged with its registration position; every factory is
attempted independently, and a faulted factory simply contributes no
instance here. -/
def liveInstancesFrom : Nat → List Factory → List (Nat × Middleware)
  | _, [] => []
  | i, .ok m :: rest => (i, m) :: liveInstancesFrom (i + 1) rest
  | i, .broken _ :: rest => liveInstancesFrom (i + 1) rest

/-- The live instances of the registered factory list, with positions. -/
def liveInstances (fs : List Factory) : List (Nat × Middleware) :=
  liveInstancesFrom 0 fs

/-- Modelled from the spec: the effect of one `process_outcome` result on
the fault triple: falsy → unchanged; truthy non-fault → cleared; a returned
fault object → replaced; a raised fault → captured and installed as the
triple. -/
def applyPO (a : POAction) (triple : Option Fault) : Option Fault :=
  match a with
  | .keep => triple
  | .clear => none
  | .replace f => some f
  | .raiseF f => some f

/-- Modelled from the spec: the outcome-processing phase over an already
reverse-ordered list of live instances, threading the fault triple; each
instance observes the triple left by its predecessor (middleware code never
runs inside the shutdown scope, so the events carry flag `false`). -/
def processOutcomePhase : List (Nat × Middleware) → Option Fault → Option Fault × List Event
  | [], triple => (triple, [])
  | (i, m) :: rest, triple =>
      ((processOutcomePhase rest (applyPO m.outcome triple)).1,
       .processOutcome i triple false ::
         (processOutcomePhase rest (applyPO m.outcome triple)).2)

/-- Modelled from the spec: `Task._generate_outcome` — iterate all live
instances in reverse registration order starting from the captured fault
triple, then classify whatever triple remains. -/
def generateOutcome (fs : List Factory) (triple : Option Fault) : Outcome × List Event :=
  ((classify (processOutcomePhase (liveInstances fs).reverse triple).1),
   (processOutcomePhase (liveInstances fs).reverse triple).2)

/-- Modelled from the spec: `Task.execute` — resolve the callable (a
resolution fault skips the run phase entirely and is fed directly to the
outcome-processing phase), otherwise run the middleware chain around the
shutdown-scoped invocation, then generate the final Outcome. Returns the
Outcome together with the observable event trace. -/
def execute (t : Task) (fs : List Factory) (cm : Option ShutdownCM) : Outcome × List Event :=
  if t.resolvable then
    ((generateOutcome fs (runChain t cm false 0 fs).1).1,
     (runChain t cm false 0 fs).2 ++ (generateOutcome fs (runChain t cm false 0 fs).1).2)
  else
    generateOutcome fs (some resolutionFault)

/-- The block of `run_task` before-events for positions `i, i+1, …, i+n-1`
in registration order. -/
def beforeEvs : Nat → Nat → Bool → List Event
  | _, 0, _ => []
  | i, n + 1, b => .before i b :: beforeEvs (i + 1) n b

/-- The block of `run_task` after-events for positions `i+n-1, …, i+1, i`
in reverse registration order. -/
def afterEvs : Nat → Nat → Bool → List Event
  | _, 0, _ => []
  | i, n + 1, b => afterEvs (i + 1) n b ++ [.after i b]

/-- The block of `process_outcome` events for positions `i+n-1, …, i+1, i`
in reverse registration order, each observing the triple `tr`. -/
def procOutEvs : Nat → Nat → Option Fault → List Event
  | _, 0, _ => []
  | i, n + 1, tr => procOutEvs (i + 1) n tr ++ [.processOutcome i tr false]

/-- A middleware is passive when its `run_task` never raises and its
`process_outcome` returns a falsy value. -/
def passive (m : Middleware) : Prop :=
  m.raiseBefore = none ∧ m.raiseAfter = none ∧ m.outcome = .keep

instance (m : Middleware) : Decidable (passive m) :=
  decidable_of_iff (m.raiseBefore = none ∧ m.raiseAfter = none ∧ m.outcome = .keep) Iff.rfl

/-- An aborted-kind fault whose literal text is empty, as raised by task
code aborting with an empty reason. -/
def emptyAbort : Fault := { kind := "TaskAborted", detail := "", aborted := true, trace := "" }

/-- `takeWhile` consumes exactly a prefix whose elements all satisfy the
predicate when the next element fails it. -/
theorem takeWhile_to_first_stop {α} (p : α → Bool) :
    ∀ (l1 : List α) (a : α) (l2 : List α), (∀ x ∈ l1, p x = true) → p a = false →
      (l1 ++ a :: l2).takeWhile p = l1 := by
  intro l1
  induction l1 with
  | nil => intro a l2 _ ha; simp [List.takeWhile_cons, ha]
  | cons x l1 ih =>
      intro a l2 h ha
      simp only [List.cons_append, List.takeWhile_cons, h x (List.mem_cons_self ..)]
      simp [ih a l2 (fun y hy => h y (List.mem_cons_of_mem _ hy)) ha]

/-- The last line of a string obtained by appending a newline and a
newline-free tail is exactly that tail. -/
theorem lastLine_append (s t : String) (ht : singleLine t = true) :
    lastLine (s ++ "\n" ++ t) = t := by
  apply String.ext
  show ((s ++ "\n" ++ t).data.reverse.takeWhile (fun c => c != '\n')).reverse = t.data
  have hd : (s ++ "\n" ++ t).data = s.data ++ '\n' :: t.data := by
    simp [String.data_append]
  rw [hd]
  have hrev : (s.data ++ '\n' :: t.data).reverse = t.data.reverse ++ '\n' :: s.data.reverse := by
    simp
  rw [hrev, takeWhile_to_first_stop _ _ _ _ ?_ (by decide), List.reverse_reverse]
  intro x hx
  exact (List.all_eq_true.mp ht) x (List.mem_reverse.mp hx)

/-- `singleLine` distributes over appending. -/
theorem singleLine_append (s t : String) :
    singleLine (s ++ t) = (singleLine s && singleLine t) := by
  simp [singleLine, String.data_append]

/-- The last line of a formatted fault trace is the fault kind, a colon, a
space and the detail, provided kind and detail are newline-free. -/
theorem lastLine_formatTrace (f : Fault)
    (hk : singleLine f.kind = true) (hd : singleLine f.detail = true) :
    lastLine (formatTrace f) = f.kind ++ ": " ++ f.detail := by
  have hgroup : formatTrace f
      = ("Traceback (most recent call last):\n" ++ f.trace) ++ "\n"
          ++ (f.kind ++ ": " ++ f.detail) := by
    apply String.ext
    simp [formatTrace, String.data_append]
  rw [hgroup]
  apply lastLine_append
  simp [singleLine_append, hk, hd]
  decide

/-- A formatted fault trace is never the empty string. -/
theorem formatTrace_ne_empty (f : Fault) : formatTrace f ≠ "" := by
  intro h
  have h2 := congrArg String.data h
  simp [formatTrace, String.data_append] at h2

/-- The run phase over a passive prefix wraps the rest of the chain in the
prefix's before-events (registration order) and after-events (reverse
order), and passes the inner fault through unchanged. -/
theorem runChain_passive_prefix (t : Task) (cm : Option ShutdownCM) (b : Bool) :
    ∀ (pre : List Middleware), (∀ m ∈ pre, m.raiseBefore = none ∧ m.raiseAfter = none) →
    ∀ (i : Nat) (rest : List Factory),
      runChain t cm b i (pre.map .ok ++ rest) =
        ((runChain t cm b (i + pre.length) rest).1,
         beforeEvs i pre.length b ++ (runChain t cm b (i + pre.length) rest).2
           ++ afterEvs i pre.length b) := by
  intro pre
  induction pre with
  | nil => intro _ i rest; simp [beforeEvs, afterEvs]
  | cons m pre ih =>
      intro h i rest
      have hm := h m (List.mem_cons_self ..)
      have ih2 := ih (fun x hx => h x (List.mem_cons_of_mem _ hx)) (i + 1) rest
      have harith : i + 1 + pre.length = i + (pre.length + 1) := by omega
      rw [harith] at ih2
      simp only [List.map_cons, List.cons_append, runChain, hm.1, hm.2, List.append_eq]
      rw [ih2]
      simp [beforeEvs, afterEvs]

/-- Outcome processing over a concatenation: the second block starts from
the triple the first block ends with. -/
theorem processOutcomePhase_append :
    ∀ (A B : List (Nat × Middleware)) (tr : Option Fault),
      processOutcomePhase (A ++ B) tr =
        ((processOutcomePhase B (processOutcomePhase A tr).1).1,
         (processOutcomePhase A tr).2
           ++ (processOutcomePhase B (processOutcomePhase A tr).1).2) := by
  intro A
  induction A with
  | nil => intro B tr; simp [processOutcomePhase]
  | cons e A ih =>
      intro B tr
      obtain ⟨i, m⟩ := e
      simp [processOutcomePhase, ih]

/-- Outcome processing over instances that all keep the triple leaves the
triple unchanged and emits one observation event per instance in list
order. -/
theorem processOutcomePhase_keep :
    ∀ (entries : List (Nat × Middleware)) (tr : Option Fault),
      (∀ e ∈ entries, e.2.outcome = .keep) →
      processOutcomePhase entries tr
        = (tr, entries.map fun e => .processOutcome e.1 tr false) := by
  intro entries
  induction entries with
  | nil => intro tr _; simp [processOutcomePhase]
  | cons e entries ih =>
      intro tr h
      obtain ⟨i, m⟩ := e
      have hm : m.outcome = .keep := h (i, m) (List.mem_cons_self ..)
      simp [processOutcomePhase, hm, applyPO,
        ih tr (fun x hx => h x (List.mem_cons_of_mem _ hx))]

/-- The instantiation record of a concatenated factory list. -/
theorem liveInstancesFrom_append :
    ∀ (A B : List Factory) (i : Nat),
      liveInstancesFrom i (A ++ B)
        = liveInstancesFrom i A ++ liveInstancesFrom (i + A.length) B := by
  intro A
  induction A with
  | nil => intro B i; simp [liveInstancesFrom]
  | cons f A ih =>
      intro B i
      have harith : i + 1 + A.length = i + (A.length + 1) := by omega
      cases f with
      | ok m => simp [liveInstancesFrom, ih, harith]
      | broken g => simp [liveInstancesFrom, ih, harith]

/-- Every live instance recorded from an all-`ok` factory list is one of the
listed middleware. -/
theorem mem_liveInstancesFrom_ok :
    ∀ (ms : List Middleware) (i : Nat) (e : Nat × Middleware),
      e ∈ liveInstancesFrom i (ms.map .ok) → e.2 ∈ ms := by
  intro ms
  induction ms with
  | nil => intro i e h; simp [liveInstancesFrom] at h
  | cons m ms ih =>
      intro i e h
      simp only [List.map_cons, liveInstancesFrom, List.mem_cons] at h
      rcases h with h | h
      · subst h; exact List.mem_cons_self ..
      · exact List.mem_cons_of_mem _ (ih (i + 1) e h)

/-- The reversed instantiation record of an all-`ok` factory list, mapped to
observation events, is the reverse-order `process_outcome` block. -/
theorem revMap_liveInstancesFrom_ok :
    ∀ (ms : List Middleware) (i : Nat) (tr : Option Fault),
      ((liveInstancesFrom i (ms.map .ok)).reverse).map
          (fun e => Event.processOutcome e.1 tr false)
        = procOutEvs i ms.length tr := by
  intro ms
  induction ms with
  | nil => intro i tr; simp [liveInstancesFrom, procOutEvs]
  | cons m ms ih =>
      intro i tr
      simp [liveInstancesFrom, procOutEvs, ih]

/-- Variant of the previous lemma with the map pushed inside the reversal,
matching the simp normal form. -/
theorem mapRev_liveInstancesFrom_ok :
    ∀ (ms : List Middleware) (i : Nat) (tr : Option Fault),
      (List.map (fun e => Event.processOutcome e.1 tr false)
          (liveInstancesFrom i (ms.map .ok))).reverse
        = procOutEvs i ms.length tr := by
  intro ms i tr
  rw [← List.map_reverse]
  exact revMap_liveInstancesFrom_ok ms i tr

/-- Outcome processing over the reversed instantiation record of an all-`ok`
list of keep-middleware: the triple survives and the events are the
reverse-order observation block. -/
theorem pop_rev_ok_keep (ms : List Middleware) (i : Nat) (tr : Option Fault)
    (h : ∀ m ∈ ms, m.outcome = .keep) :
    processOutcomePhase ((liveInstancesFrom i (ms.map .ok)).reverse) tr
      = (tr, procOutEvs i ms.length tr) := by
  rw [processOutcomePhase_keep _ _ ?_, revMap_liveInstancesFrom_ok]
  intro e he
  exact h e.2 (mem_liveInstancesFrom_ok ms i e (List.mem_reverse.mp he))

/-- Every event of the outcome-processing phase is an observation event
recorded outside the shutdown scope. -/
theorem pop_events_flag :
    ∀ (entries : List (Nat × Middleware)) (tr : Option Fault) (e : Event),
      e ∈ (processOutcomePhase entries tr).2 → eventInCM e = false ∧ isCall e = false := by
  intro entries
  induction entries with
  | nil => intro tr e h; simp [processOutcomePhase] at h
  | cons x entries ih =>
      intro tr e h
      obtain ⟨i, m⟩ := x
      simp only [processOutcomePhase, List.mem_cons] at h
      rcases h with h | h
      · subst h; exact ⟨rfl, rfl⟩
      · exact ih _ e h

/-- Every event of the run phase with a shutdown scope supplied is either a
middleware event carrying the ambient flag or the bracketed callable
invocation. -/
theorem runChain_events_cm (t : Task) (c : ShutdownCM) (b : Bool) :
    ∀ (fs : List Factory) (i : Nat) (e : Event),
      e ∈ (runChain t (some c) b i fs).2 →
        (eventInCM e = b ∧ isCall e = false) ∨ e = .call true := by
  intro fs
  induction fs with
  | nil =>
      intro i e h
      simp only [runChain, innerProceed] at h
      cases hc : c.enterFault with
      | some f => rw [hc] at h; simp at h
      | none =>
          rw [hc] at h
          cases ht : t.callFault with
          | some f => rw [ht] at h; simp at h; subst h; right; rfl
          | none => rw [ht] at h; simp at h; subst h; right; rfl
  | cons f fs ih =>
      intro i e h
      cases f with
      | broken g => simp [runChain] at h
      | ok m =>
          cases hb : m.raiseBefore with
          | some g =>
              simp only [runChain, hb] at h
              simp at h; subst h; left; exact ⟨rfl, rfl⟩
          | none =>
              simp only [runChain, hb, List.mem_cons, List.mem_append,
                List.mem_singleton] at h
              rcases h with (h | h) | h | h
              · subst h; left; exact ⟨rfl, rfl⟩
              · exact ih (i + 1) e h
              · subst h; left; exact ⟨rfl, rfl⟩
              · exact absurd h (List.not_mem_nil e)

/-- Claim C1: for every task whose resolved callable raises a fault that is
not of the aborted kind, `execute` returns a `Failed` outcome whose
message's last line equals exactly the fault kind name, a colon, a space and
the stringified detail (the fault's kind and detail being single lines, as a
line of output is). -/
theorem claim1_failed_execute (f : Fault) (hab : f.aborted = false)
    (hk : singleLine f.kind = true) (hd : singleLine f.detail = true) :
    (execute ⟨true, some f⟩ [] none).1.outcome = .failed ∧
    lastLine (execute ⟨true, some f⟩ [] none).1.message = f.kind ++ ": " ++ f.detail := by
  have key : (execute ⟨true, some f⟩ [] none).1
      = { outcome := .failed, message := formatTrace f } := by
    simp [execute, runChain, innerProceed, generateOutcome, liveInstances,
      liveInstancesFrom, processOutcomePhase, classify, hab]
  rw [key]
  exact ⟨rfl, lastLine_formatTrace f hk hd⟩

/-- Witness for C1 at the fault of the reference test: a `ValueError` with
detail "TestException". -/
theorem claim1_witness :
    (execute ⟨true, some ⟨"ValueError", "TestException", false, ""⟩⟩ [] none).1.outcome
        = .failed ∧
    lastLine
        (execute ⟨true, some ⟨"ValueError", "TestException", false, ""⟩⟩ [] none).1.message
      = "ValueError" ++ ": " ++ "TestException" :=
  claim1_failed_execute ⟨"ValueError", "TestException", false, ""⟩ rfl (by decide) (by decide)

/-- Claim C2: if the shutdown fault is raised by the callable itself, by the
shutdown scope's entry hook, or by its exit hook, `execute` returns an
`Aborted` outcome with message exactly "Worker shutdown"; when it is raised
on scope entry the resolved callable is never invoked (no `call` event
appears in the trace, whatever the callable would have done). -/
theorem claim2_shutdown_fault (ef : Option Fault) :
    (execute ⟨true, some workerShutdown⟩ [] none).1
        = { outcome := .aborted, message := "Worker shutdown" } ∧
    (execute ⟨true, some workerShutdown⟩ [] (some ⟨none, ef⟩)).1
        = { outcome := .aborted, message := "Worker shutdown" } ∧
    (execute ⟨true, none⟩ [] (some ⟨none, some workerShutdown⟩)).1
        = { outcome := .aborted, message := "Worker shutdown" } ∧
    (∀ cf : Option Fault,
      (execute ⟨true, cf⟩ [] (some ⟨some workerShutdown, ef⟩)).1
          = { outcome := .aborted, message := "Worker shutdown" } ∧
      ∀ b, Event.call b ∉ (execute ⟨true, cf⟩ [] (some ⟨some workerShutdown, ef⟩)).2) := by
  refine ⟨by decide, ?_, by decide, fun cf => ⟨?_, fun b => ?_⟩⟩ <;>
    simp [execute, runChain, innerProceed, generateOutcome, liveInstances,
      liveInstancesFrom, processOutcomePhase, classify, workerShutdown]

/-- Witness for C2 at a concrete exit-hook behaviour. -/
theorem claim2_witness :
    (execute ⟨true, some workerShutdown⟩ [] none).1
        = { outcome := .aborted, message := "Worker shutdown" } :=
  (claim2_shutdown_fault none).1

/-- Claim C3: for every task whose `callable_reference` cannot be resolved,
`execute` returns `Failed` with last message line exactly
"RuntimeError: Failed to import task function"; the full event trace
consists solely of the reverse-order `process_outcome` observations of the
resolution fault by every registered (observing) middleware — in particular
no `run_task` is ever invoked. -/
theorem claim3_broken_task (ms : List Middleware) (cf : Option Fault) (cm : Option ShutdownCM)
    (h : ∀ m ∈ ms, m.outcome = POAction.keep) :
    execute ⟨false, cf⟩ (ms.map .ok) cm
        = ({ outcome := .failed, message := formatTrace resolutionFault },
           procOutEvs 0 ms.length (some resolutionFault)) ∧
    lastLine (execute ⟨false, cf⟩ (ms.map .ok) cm).1.message
        = "RuntimeError: Failed to import task function" := by
  have key : execute ⟨false, cf⟩ (ms.map .ok) cm
      = ({ outcome := .failed, message := formatTrace resolutionFault },
         procOutEvs 0 ms.length (some resolutionFault)) := by
    simp [execute, generateOutcome, liveInstances, pop_rev_ok_keep ms 0 _ h, classify,
      resolutionFault]
  refine ⟨key, ?_⟩
  rw [key]
  show lastLine (formatTrace resolutionFault) = _
  rw [lastLine_formatTrace resolutionFault (by decide) (by decide)]
  decide

/-- Witness for C3 with one registered passive middleware. -/
theorem claim3_witness :
    execute ⟨false, none⟩ ([spy].map .ok) none
        = ({ outcome := .failed, message := formatTrace resolutionFault },
           procOutEvs 0 [spy].length (some resolutionFault)) ∧
    lastLine (execute ⟨false, none⟩ ([spy].map .ok) none).1.message
        = "RuntimeError: Failed to import task function" :=
  claim3_broken_task [spy] none none (by decide)

/-- Claim C5: in the outcome-processing phase a falsy `process_outcome`
result leaves the fault triple unchanged, a fault result replaces the triple
(visible to all subsequent, more-outer instances and to the final
classification), a truthy non-fault result clears the triple, and the triple
remaining after the last-processed instance is what the final Outcome is
classified from. -/
theorem claim5_outcome_processing (i : Nat) (m : Middleware)
    (rest : List (Nat × Middleware)) (tr : Option Fault) :
    (m.outcome = .keep →
      (processOutcomePhase ((i, m) :: rest) tr).1 = (processOutcomePhase rest tr).1) ∧
    (∀ f, m.outcome = .replace f →
      (processOutcomePhase ((i, m) :: rest) tr).1 = (processOutcomePhase rest (some f)).1) ∧
    (m.outcome = .clear →
      (processOutcomePhase ((i, m) :: rest) tr).1 = (processOutcomePhase rest none).1) ∧
    (∀ fs : List Factory,
      (generateOutcome fs tr).1
        = classify (processOutcomePhase (liveInstances fs).reverse tr).1) := by
  refine ⟨fun h => ?_, fun f h => ?_, fun h => ?_, fun fs => rfl⟩ <;>
    simp [processOutcomePhase, applyPO, h]

/-- Witness for C5 at a passive middleware. -/
theorem claim5_witness :
    (processOutcomePhase [(0, spy)] none).1 = (processOutcomePhase [] none).1 :=
  (claim5_outcome_processing 0 spy [] none).1 rfl

/-- Counterexample to claim C9 as stated: a callable aborting with an empty
reason produces an `Aborted` outcome whose message is empty, so an outcome
with empty message need not be `Success` and an `Aborted` outcome need not
carry a non-empty message. -/
theorem claim9_counterexample :
    (execute ⟨true, some emptyAbort⟩ [] none).1.outcome = .aborted ∧
    (execute ⟨true, some emptyAbort⟩ [] none).1.message = "" := by
  constructor <;> rfl

/-- Claim C9 as amended: `Success` outcomes always have an empty message and
`Failed` outcomes always have a non-empty message; an `Aborted` outcome
carries the aborted fault's literal text, which can itself be empty (it is
the fixed non-empty string "Worker shutdown" for the shutdown variant). -/
theorem claim9_success_iff_empty (t : Task) (fs : List Factory) (cm : Option ShutdownCM) :
    ((execute t fs cm).1.outcome = .success → (execute t fs cm).1.message = "") ∧
    ((execute t fs cm).1.outcome = .failed → (execute t fs cm).1.message ≠ "") := by
  have hex : ∃ tr, (execute t fs cm).1 = classify tr := by
    by_cases h : t.resolvable = true
    · refine ⟨(processOutcomePhase (liveInstances fs).reverse
        (runChain t cm false 0 fs).1).1, ?_⟩
      simp [execute, h, generateOutcome]
    · refine ⟨(processOutcomePhase (liveInstances fs).reverse (some resolutionFault)).1, ?_⟩
      simp [execute, h, generateOutcome]
  obtain ⟨tr, h⟩ := hex
  rw [h]
  cases tr with
  | none => simp [classify]
  | some f =>
      by_cases hab : f.aborted
      · simp [classify, hab]
      · simp [classify, hab, formatTrace_ne_empty f]

/-- Witness for C9 as amended: a successful execution has an empty message. -/
theorem claim9_witness :
    (execute ⟨true, none⟩ [] none).1.message = "" :=
  (claim9_success_iff_empty ⟨true, none⟩ [] none).1 rfl

/-- Claim C10: a fault raised (rather than returned) by a middleware's
`process_outcome` is caught by the pipeline and installed as the fault
triple, visible to all subsequent (more-outer) instances and to the final
classification — the raised fault never propagates past the phase — and an
aborted-kind fault raised this way by the first-registered (last-processed)
middleware yields an `Aborted` outcome carrying that fault's text. -/
theorem claim10_raise_in_process_outcome (i : Nat) (m : Middleware) (f : Fault)
    (h : m.outcome = .raiseF f) :
    (∀ (rest : List (Nat × Middleware)) (tr : Option Fault),
      (processOutcomePhase ((i, m) :: rest) tr).1 = (processOutcomePhase rest (some f)).1) ∧
    (∀ (pre : List (Nat × Middleware)) (tr : Option Fault),
      (processOutcomePhase (pre ++ [(i, m)]) tr).1 = some f) ∧
    (f.aborted = true →
      ∀ (rest : List Factory) (tr : Option Fault),
        (generateOutcome (Factory.ok m :: rest) tr).1
          = { outcome := .aborted, message := f.detail }) := by
  have hlast : ∀ (j : Nat) (pre : List (Nat × Middleware)) (tr : Option Fault),
      (processOutcomePhase (pre ++ [(j, m)]) tr).1 = some f := by
    intro j pre tr
    rw [processOutcomePhase_append]
    simp [processOutcomePhase, applyPO, h]
  refine ⟨fun rest tr => by simp [processOutcomePhase, applyPO, h], hlast i,
    fun hab rest tr => ?_⟩
  have hlive : liveInstances (Factory.ok m :: rest)
      = (0, m) :: liveInstancesFrom 1 rest := by
    simp [liveInstances, liveInstancesFrom]
  have h2 := hlast 0 ((liveInstancesFrom 1 rest).reverse) tr
  simp [generateOutcome, hlive, h2, classify, hab]

/-- Witness for C10: a single middleware raising an aborted-kind fault from
`process_outcome` turns an otherwise successful run into `Aborted` with that
fault's text. -/
theorem claim10_witness :
    (generateOutcome
        [Factory.ok ⟨none, none, .raiseF ⟨"TaskAborted", "fake abort", true, ""⟩⟩]
        none).1
      = { outcome := .aborted, message := "fake abort" } :=
  ((claim10_raise_in_process_outcome 0
      ⟨none, none, .raiseF ⟨"TaskAborted", "fake abort", true, ""⟩⟩
      ⟨"TaskAborted", "fake abort", true, ""⟩ rfl).2.2 rfl [] none)

/-- Claim C4: with N registered (passive) middleware and no faults, the
observable trace is the `run_task` before-events in registration order, the
raw callable invocation, the `run_task` after-events in reverse order, and
the `process_outcome` events in reverse order, and `execute` returns
`Success`. -/
theorem claim4_middleware_order (ms : List Middleware) (h : ∀ m ∈ ms, passive m) :
    execute ⟨true, none⟩ (ms.map .ok) none
      = ({ outcome := .success, message := "" },
         beforeEvs 0 ms.length false ++ [Event.call false]
           ++ afterEvs 0 ms.length false ++ procOutEvs 0 ms.length none) := by
  have hw := runChain_passive_prefix ⟨true, none⟩ none false ms
      (fun m hm => ⟨(h m hm).1, (h m hm).2.1⟩) 0 []
  rw [List.append_nil] at hw
  have base : runChain ⟨true, none⟩ none false (0 + ms.length) ([] : List Factory)
      = (none, [Event.call false]) := by
    simp [runChain, innerProceed]
  rw [base] at hw
  have hpop := pop_rev_ok_keep ms 0 none (fun m hm => (h m hm).2.2)
  simp [execute, hw, generateOutcome, liveInstances, hpop, classify]

/-- Witness for C4 with two registered passive middleware. -/
theorem claim4_witness :
    execute ⟨true, none⟩ ([spy, spy].map .ok) none
      = ({ outcome := .success, message := "" },
         beforeEvs 0 [spy, spy].length false ++ [Event.call false]
           ++ afterEvs 0 [spy, spy].length false ++ procOutEvs 0 [spy, spy].length none) :=
  claim4_middleware_order [spy, spy] (by decide)

/-- Claim C6: if the middleware at position k raises inside `run_task`
before calling `proceed`, positions 0..k-1 still receive their after-events
in reverse order during unwind, positions k+1..N-1 receive no `run_task`
events at all (and the callable is never invoked), every instantiated
position receives `process_outcome` observing the raised fault, and
`execute` returns `Failed` for a non-abort fault. -/
theorem claim6_raise_before_proceed (pre post : List Middleware) (f : Fault)
    (hpre : ∀ m ∈ pre, passive m) (hpost : ∀ m ∈ post, passive m)
    (hab : f.aborted = false) :
    execute ⟨true, none⟩
        (pre.map .ok ++ Factory.ok ⟨some f, none, .keep⟩ :: post.map .ok) none
      = ({ outcome := .failed, message := formatTrace f },
         beforeEvs 0 pre.length false ++ [Event.before pre.length false]
           ++ afterEvs 0 pre.length false
           ++ procOutEvs (pre.length + 1) post.length (some f)
           ++ [Event.processOutcome pre.length (some f) false]
           ++ procOutEvs 0 pre.length (some f)) := by
  have hw := runChain_passive_prefix ⟨true, none⟩ none false pre
      (fun m hm => ⟨(hpre m hm).1, (hpre m hm).2.1⟩) 0
      (Factory.ok ⟨some f, none, .keep⟩ :: post.map .ok)
  have base : runChain ⟨true, none⟩ none false (0 + pre.length)
      (Factory.ok ⟨some f, none, .keep⟩ :: post.map .ok)
      = (some f, [Event.before (0 + pre.length) false]) := by
    simp [runChain]
  rw [base] at hw
  have hlive : liveInstances
      (pre.map .ok ++ Factory.ok ⟨some f, none, .keep⟩ :: post.map .ok)
      = liveInstancesFrom 0 (pre.map .ok)
          ++ (pre.length, (⟨some f, none, .keep⟩ : Middleware))
            :: liveInstancesFrom (pre.length + 1) (post.map .ok) := by
    rw [liveInstances, liveInstancesFrom_append]
    simp [liveInstancesFrom]
  have hkeepAll : ∀ e ∈ (liveInstances
      (pre.map .ok ++ Factory.ok ⟨some f, none, .keep⟩ :: post.map .ok)).reverse,
      (e : Nat × Middleware).2.outcome = .keep := by
    intro e he
    rw [List.mem_reverse, hlive, List.mem_append, List.mem_cons] at he
    rcases he with he | he | he
    · exact (hpre e.2 (mem_liveInstancesFrom_ok pre 0 e he)).2.2
    · rw [he]
    · exact (hpost e.2 (mem_liveInstancesFrom_ok post (pre.length + 1) e he)).2.2
  have hpop := processOutcomePhase_keep _ (some f) hkeepAll
  have hmap : ((liveInstances
      (pre.map .ok ++ Factory.ok ⟨some f, none, .keep⟩ :: post.map .ok)).reverse).map
        (fun e => Event.processOutcome e.1 (some f) false)
      = procOutEvs (pre.length + 1) post.length (some f)
          ++ [Event.processOutcome pre.length (some f) false]
          ++ procOutEvs 0 pre.length (some f) := by
    rw [hlive]
    simp [mapRev_liveInstancesFrom_ok]
  rw [hmap] at hpop
  simp [execute, hw, generateOutcome, hpop, classify, hab]

/-- Witness for C6: one passive middleware before and after a middleware
raising an `ArithmeticError` before `proceed`. -/
theorem claim6_witness :
    execute ⟨true, none⟩
        ([spy].map .ok
          ++ Factory.ok ⟨some ⟨"ArithmeticError", "", false, ""⟩, none, .keep⟩
            :: [spy].map .ok) none
      = ({ outcome := .failed, message := formatTrace ⟨"ArithmeticError", "", false, ""⟩ },
         beforeEvs 0 [spy].length false ++ [Event.before [spy].length false]
           ++ afterEvs 0 [spy].length false
           ++ procOutEvs ([spy].length + 1) [spy].length
               (some ⟨"ArithmeticError", "", false, ""⟩)
           ++ [Event.processOutcome [spy].length
               (some ⟨"ArithmeticError", "", false, ""⟩) false]
           ++ procOutEvs 0 [spy].length (some ⟨"ArithmeticError", "", false, ""⟩)) :=
  claim6_raise_before_proceed [spy] [spy] ⟨"ArithmeticError", "", false, ""⟩
    (by decide) (by decide) rfl

/-- Claim C7: if the middleware factory at position k raises during
instantiation, positions before k run `run_task` before/after normally,
position k and all later positions run no `run_task` (and the callable is
never invoked), yet every position whose factory succeeded — including
positions after k — still receives `process_outcome` observing the
instantiation fault, and `execute` returns `Failed`. -/
theorem claim7_factory_raises (pre post : List Middleware) (f : Fault)
    (hpre : ∀ m ∈ pre, passive m) (hpost : ∀ m ∈ post, passive m)
    (hab : f.aborted = false) :
    execute ⟨true, none⟩ (pre.map .ok ++ Factory.broken f :: post.map .ok) none
      = ({ outcome := .failed, message := formatTrace f },
         beforeEvs 0 pre.length false ++ afterEvs 0 pre.length false
           ++ procOutEvs (pre.length + 1) post.length (some f)
           ++ procOutEvs 0 pre.length (some f)) := by
  have hw := runChain_passive_prefix ⟨true, none⟩ none false pre
      (fun m hm => ⟨(hpre m hm).1, (hpre m hm).2.1⟩) 0
      (Factory.broken f :: post.map .ok)
  have base : runChain ⟨true, none⟩ none false (0 + pre.length)
      (Factory.broken f :: post.map .ok) = (some f, []) := by
    simp [runChain]
  rw [base] at hw
  have hlive : liveInstances (pre.map .ok ++ Factory.broken f :: post.map .ok)
      = liveInstancesFrom 0 (pre.map .ok)
          ++ liveInstancesFrom (pre.length + 1) (post.map .ok) := by
    rw [liveInstances, liveInstancesFrom_append]
    simp [liveInstancesFrom]
  have hkeepAll : ∀ e ∈ (liveInstances
      (pre.map .ok ++ Factory.broken f :: post.map .ok)).reverse,
      (e : Nat × Middleware).2.outcome = .keep := by
    intro e he
    rw [List.mem_reverse, hlive, List.mem_append] at he
    rcases he with he | he
    · exact (hpre e.2 (mem_liveInstancesFrom_ok pre 0 e he)).2.2
    · exact (hpost e.2 (mem_liveInstancesFrom_ok post (pre.length + 1) e he)).2.2
  have hpop := processOutcomePhase_keep _ (some f) hkeepAll
  have hmap : ((liveInstances
      (pre.map .ok ++ Factory.broken f :: post.map .ok)).reverse).map
        (fun e => Event.processOutcome e.1 (some f) false)
      = procOutEvs (pre.length + 1) post.length (some f)
          ++ procOutEvs 0 pre.length (some f) := by
    rw [hlive]
    simp [mapRev_liveInstancesFrom_ok]
  rw [hmap] at hpop
  simp [execute, hw, generateOutcome, hpop, classify, hab]

/-- Witness for C7: one passive middleware before and after a broken factory
raising a `TypeError`. -/
theorem claim7_witness :
    execute ⟨true, none⟩
        ([spy].map .ok ++ Factory.broken ⟨"TypeError", "", false, ""⟩ :: [spy].map .ok) none
      = ({ outcome := .failed, message := formatTrace ⟨"TypeError", "", false, ""⟩ },
         beforeEvs 0 [spy].length false ++ afterEvs 0 [spy].length false
           ++ procOutEvs ([spy].length + 1) [spy].length (some ⟨"TypeError", "", false, ""⟩)
           ++ procOutEvs 0 [spy].length (some ⟨"TypeError", "", false, ""⟩)) :=
  claim7_factory_raises [spy] [spy] ⟨"TypeError", "", false, ""⟩ (by decide) (by decide) rfl

/-- Claim C8: no middleware code ever executes while the shutdown scope is
entered: in every execution with a shutdown scope supplied, every event of
the trace was recorded inside the scope exactly when it is the raw
resolved-callable invocation. -/
theorem claim8_scope_isolation (t : Task) (fs : List Factory) (c : ShutdownCM) :
    ∀ e ∈ (execute t fs (some c)).2, eventInCM e = isCall e := by
  intro e he
  by_cases h : t.resolvable = true
  · simp only [execute, h, if_pos, generateOutcome] at he
    rcases List.mem_append.mp he with h1 | h1
    · rcases runChain_events_cm t c false fs 0 e h1 with ⟨h3, h4⟩ | h3
      · rw [h3, h4]
      · subst h3; rfl
    · obtain ⟨h3, h4⟩ := pop_events_flag _ _ e h1
      rw [h3, h4]
  · simp only [execute, h, if_neg, if_false, Bool.false_eq_true, generateOutcome] at he
    obtain ⟨h3, h4⟩ := pop_events_flag _ _ e he
    rw [h3, h4]

/-- Witness for C8: the callable invocation event of a scoped execution is
recorded inside the scope, and it is the invocation event. -/
theorem claim8_witness : eventInCM (Event.call true) = isCall (Event.call true) :=
  claim8_scope_isolation ⟨true, none⟩ [] ⟨none, none⟩ (Event.call true) (by decide)

end RedisTasks
